import Mathlib

/-!
Verification of the S3-to-S3 batch transfer core: destination-key
derivation, multipart part-range computation, multipart abort-on-failure,
exponential backoff retry, credential caching, error classification and
the validation sampler.  Every definition is a shallow embedding of the
corresponding Python function under src/src/lambda/.

The file is organised as definitions first, then theorems.
-/

namespace S3Batch

/-! ## Definitions -/

/-- Python `s.startswith(pre)`: character-prefix test, as used in
`transfer_object/handler.py` and `validate_transfer/handler.py`. -/
def py_starts_with (s pre : String) : Bool :=
  pre.data.isPrefixOf s.data

/-- Destination-key computation shared verbatim by
`transfer_object/handler.py` (lines 47-53) and
`validate_transfer/handler.py` (lines 115-120):

    if source_prefix and source_key.startswith(source_prefix):
        relative_key = source_key[len(source_prefix):]
    else:
        relative_key = source_key
    dest_key = f"{dest_prefix}{relative_key}" if dest_prefix else relative_key

`sPre` is `source_prefix`, `dPre` is `destination_prefix`. -/
def derive_dest_key (sPre dPre key : String) : String :=
  let rel :=
    if (sPre != "") && py_starts_with key sPre then
      String.mk (key.data.drop sPre.length)
    else key
  if dPre != "" then dPre ++ rel else rel

/-- Constant `MAX_OBJECT_SIZE = 5 * 1024 * 1024 * 1024 * 1024` (5 TB) from
`common/s3_client.py`. -/
def MAX_OBJECT_SIZE : Nat := 5 * 1024 * 1024 * 1024 * 1024

/-- Constant `DEFAULT_MULTIPART_THRESHOLD = 5 * 1024 * 1024 * 1024` (5 GB) from
`common/s3_client.py`. -/
def DEFAULT_MULTIPART_THRESHOLD : Nat := 5 * 1024 * 1024 * 1024

/-- Constant `DEFAULT_PART_SIZE = 100 * 1024 * 1024` (100 MB) from
`common/s3_client.py`. -/
def DEFAULT_PART_SIZE : Nat := 100 * 1024 * 1024

/-- Embeds `num_parts = math.ceil(object_size / part_size)` from `multipart_copy`.
For the sizes admitted by the 5 TB guard the Python float division is
exact enough that `math.ceil` equals the integer ceiling, embedded here as
`(objectSize + partSize - 1) / partSize`. -/
def mp_num_parts (objectSize partSize : Nat) : Nat :=
  (objectSize + partSize - 1) / partSize

/-- Embeds `start = (part_num - 1) * part_size` from the `multipart_copy` loop. -/
def mp_part_start (partSize partNum : Nat) : Nat := (partNum - 1) * partSize

/-- Embeds `end = min(part_num * part_size - 1, object_size - 1)` from the
`multipart_copy` loop. -/
def mp_part_end (objectSize partSize partNum : Nat) : Nat :=
  min (partNum * partSize - 1) (objectSize - 1)

/-- Remote S3 calls observable during a copy, in call order. -/
inductive S3Event
  | copyObjectCall
  | createCall
  | partCall (n : Nat)
  | completeCall
  | abortCall
deriving DecidableEq

/-- Errors escaping `multipart_copy`: the `ObjectTooLargeError` guard, or
a classified client error from a remote call. -/
inductive CopyErr (ε : Type)
  | tooLarge
  | client (e : ε)
deriving DecidableEq

/-- Outcomes the injected S3 client produces for each remote call of the
copy paths in `common/s3_client.py`.  `partResult n` is the outcome of
`upload_part_copy` for part number `n` (returning the part ETag);
`completeResult` takes the assembled `(PartNumber, ETag)` list.  The
outcome of `abort_multipart_upload` is `abortResult`; the source wraps
that call in `try/except` and only logs a failure. -/
structure MpClient (ε : Type) where
  copyObjectResult : Except ε Unit
  createResult : Except ε String
  partResult : Nat → Except ε String
  completeResult : List (Nat × String) → Except ε Unit
  abortResult : Except ε Unit

/-- The part loop of `multipart_copy`: parts `start, start+1, ...` for `k`
remaining parts; stops at the first failing `upload_part_copy`, otherwise
accumulates `(part_num, etag)` pairs in ascending order.  Returns the
outcome together with the emitted call events. -/
def copy_parts_from (part : Nat → Except ε String) (start : Nat) :
    Nat → Except ε (List (Nat × String)) × List S3Event
  | 0 => (.ok [], [])
  | k + 1 =>
    match part start with
    | .error e => (.error e, [.partCall start])
    | .ok etag =>
      let rest := copy_parts_from part (start + 1) k
      (rest.1.map (fun l => (start, etag) :: l), .partCall start :: rest.2)

/-- Embeds `multipart_copy` from `common/s3_client.py` (lines 179-231): reject
oversize objects before any remote call; create the multipart upload; copy
parts 1..num_parts; complete; on ANY exception after the upload id is
assigned, attempt `abort_multipart_upload` (its own failure is swallowed,
see `MpClient.abortResult`) and re-raise the original error. -/
def multipart_copy (c : MpClient ε) (objectSize partSize : Nat) :
    Except (CopyErr ε) Unit × List S3Event :=
  if MAX_OBJECT_SIZE < objectSize then (.error .tooLarge, [])
  else
    match c.createResult with
    | .error e => (.error (.client e), [.createCall])
    | .ok _uploadId =>
      match copy_parts_from c.partResult 1 (mp_num_parts objectSize partSize) with
      | (.error e, evs) =>
        (.error (.client e), .createCall :: (evs ++ [.abortCall]))
      | (.ok parts, evs) =>
        match c.completeResult parts with
        | .error e =>
          (.error (.client e), .createCall :: (evs ++ [.completeCall, .abortCall]))
        | .ok _ => (.ok (), .createCall :: (evs ++ [.completeCall]))

/-- The copy dispatch of `transfer_object/handler.py` (lines 75-94):
`copy_object` for `object_size < threshold`, `multipart_copy` otherwise. -/
def transfer_copy (c : MpClient ε) (objectSize threshold partSize : Nat) :
    Except (CopyErr ε) Unit × List S3Event :=
  if objectSize < threshold then
    ((match c.copyObjectResult with
      | .ok _ => Except.ok ()
      | .error e => Except.error (CopyErr.client e)), [.copyObjectCall])
  else multipart_copy c objectSize partSize

/-- Concrete client whose `upload_part_copy` fails on part 1 and whose
abort call itself fails; used to witness the abort-on-failure theorem. -/
def mp_fail_client : MpClient String where
  copyObjectResult := .ok ()
  createResult := .ok "uid-1"
  partResult := fun n => if n = 1 then .error "part-boom" else .ok "etag"
  completeResult := fun _ => .ok ()
  abortResult := .error "abort-boom"

/-- Outcome of one run of a function decorated by
`exponential_backoff_with_jitter` (`common/retry.py`): the final result,
the number of invocations of the wrapped function, and the sequence of
sleep durations in seconds, in order. -/
structure RetryOut (ε α : Type) where
  result : Except ε α
  calls : Nat
  sleeps : List ℚ

/-- Error escaping the retry wrapper: either a wrapped-function exception
re-raised, or the degenerate `raise last_exception` with
`last_exception = None` reached only when `max_attempts = 0` (the loop
body never ran). -/
inductive RetryErr (ε : Type)
  | raised (e : ε)
  | exhaustedNone
deriving DecidableEq

/-- Embeds the `for attempt in range(max_attempts)` loop of
`exponential_backoff_with_jitter` (`common/retry.py`, lines 29-56),
entered at `attempt`.  `op i` is the outcome of the wrapped call on
zero-indexed attempt `i`; `retryable e` models
`isinstance(e, retryable_exceptions)` (a non-retryable failure, whether
`NonRetryableError` or any other exception, propagates immediately);
`rand i ∈ [0, 1]` models `random.uniform(0, 1)`, so the sleep before
retrying attempt `i+1` is `rand i * min maxDelay (baseDelay * 2 ^ i)`,
exactly `random.uniform(0, min(max_delay, base_delay * 2**attempt))`. -/
def retry_go (op : Nat → Except ε α) (retryable : ε → Bool) (maxAttempts : Nat)
    (baseDelay maxDelay : ℚ) (rand : Nat → ℚ) (attempt : Nat) :
    RetryOut (RetryErr ε) α :=
  if _hcont : attempt < maxAttempts then
    match op attempt with
    | .ok a => ⟨.ok a, 1, []⟩
    | .error e =>
      if retryable e then
        if attempt = maxAttempts - 1 then ⟨.error (.raised e), 1, []⟩
        else
          let d := rand attempt * min maxDelay (baseDelay * 2 ^ attempt)
          let rest := retry_go op retryable maxAttempts baseDelay maxDelay rand (attempt + 1)
          ⟨rest.result, rest.calls + 1, d :: rest.sleeps⟩
      else ⟨.error (.raised e), 1, []⟩
  else ⟨.error .exhaustedNone, 0, []⟩
termination_by maxAttempts - attempt

/-- A full run of the decorated function: the loop from attempt 0. -/
def retry_run (op : Nat → Except ε α) (retryable : ε → Bool) (maxAttempts : Nat)
    (baseDelay maxDelay : ℚ) (rand : Nat → ℚ) : RetryOut (RetryErr ε) α :=
  retry_go op retryable maxAttempts baseDelay maxDelay rand 0

/-- Permanently failing retryable operation, witness input for C4. -/
def retry_fail_op : Nat → Except Nat Unit := fun _ => Except.error 0

/-- Operation failing with a non-retryable error, witness input for C5. -/
def nonretry_fail_op : Nat → Except Nat Unit := fun _ => Except.error 7

/-- Temporary credentials returned by `assume_role`
(`common/sts_client.py`): access key id, secret access key, session
token. -/
structure Creds where
  accessKeyId : String
  secretAccessKey : String
  sessionToken : String
deriving DecidableEq

/-- One `_credential_cache` entry:
`{"credentials": ..., "expiry": ...}` with the absolute expiry epoch. -/
structure CacheEntry where
  credentials : Creds
  expiry : ℚ
deriving DecidableEq

/-- Constant `_CREDENTIAL_BUFFER_SECONDS = 300` from `common/sts_client.py`. -/
def CREDENTIAL_BUFFER_SECONDS : ℚ := 300

/-- Embeds `_is_cached_credential_valid` (`common/sts_client.py`): a cached
credential is valid when the cache holds the role and
`time.time() < expiry - _CREDENTIAL_BUFFER_SECONDS`. -/
def is_cached_credential_valid (cache : String → Option CacheEntry) (now : ℚ)
    (roleArn : String) : Bool :=
  match cache roleArn with
  | none => false
  | some entry => decide (now < entry.expiry - CREDENTIAL_BUFFER_SECONDS)

/-- Outcome of one `assume_role` call: result, cache after the call, and
the number of remote STS calls performed (0 or 1). -/
structure AssumeOut (ε : Type) where
  result : Except ε Creds
  cache : String → Option CacheEntry
  remoteCalls : Nat

/-- The remote branch of `assume_role`: perform `sts.assume_role` (outcome
injected as `remote`, carrying the credentials and the absolute
`Expiration` timestamp on success), store the result keyed by `role_arn`
with its expiry, and return the credentials; a failure propagates and
caches nothing. -/
def assume_role_remote (cache : String → Option CacheEntry) (roleArn : String)
    (remote : Except ε (Creds × ℚ)) : AssumeOut ε :=
  match remote with
  | .error e => ⟨.error e, cache, 1⟩
  | .ok cexp =>
    ⟨.ok cexp.1,
      fun r => if r = roleArn then some ⟨cexp.1, cexp.2⟩ else cache r, 1⟩

/-- Embeds `assume_role` (`common/sts_client.py`, lines 21-75): return the cached
credentials without a remote call when still valid
(`now < expiry - 300`), otherwise take the remote branch. -/
def assume_role (cache : String → Option CacheEntry) (now : ℚ) (roleArn : String)
    (remote : Except ε (Creds × ℚ)) : AssumeOut ε :=
  match cache roleArn with
  | some entry =>
    if now < entry.expiry - CREDENTIAL_BUFFER_SECONDS then
      ⟨.ok entry.credentials, cache, 0⟩
    else assume_role_remote cache roleArn remote
  | none => assume_role_remote cache roleArn remote

/-- The two exception classes produced by the classifiers: the
non-retryable `AccessDeniedError` and `RetryableError`. -/
inductive ErrClass
  | accessDenied
  | retryable
deriving DecidableEq

/-- Embeds `_classify_s3_error` (`common/s3_client.py`, lines 28-38), restricted
to its decision on the error code: `AccessDenied`/`403` map to
`AccessDeniedError` (a `NonRetryableError` subclass); the throttling,
transient-server and request-timeout codes map to `RetryableError`; every
other code falls through to `RetryableError`. -/
def classify_s3_error (code : String) : ErrClass :=
  if code = "AccessDenied" ∨ code = "403" then .accessDenied
  else if code = "SlowDown" ∨ code = "503" ∨ code = "RequestTimeout" ∨
      code = "InternalError" then .retryable
  else .retryable

/-- The STS error classification inside `assume_role`
(`common/sts_client.py`, lines 77-87): `AccessDenied` and
`AccessDeniedException` raise `AccessDeniedError`; any other code raises
`RetryableError`. -/
def classify_sts_error (code : String) : ErrClass :=
  if code = "AccessDenied" ∨ code = "AccessDeniedException" then .accessDenied
  else .retryable

/-- One manifest inventory record `{Key, Size}` as consumed by
`validate_transfer/handler.py`. -/
structure InvObj where
  key : String
  size : Nat
deriving DecidableEq

/-- Reason recorded for a failed sample check: a `ContentLength`
mismatch, or a failed `head_object` probe with its message. -/
inductive FailReason
  | sizeMismatch (expected actual : Nat)
  | headFailed (msg : String)
deriving DecidableEq

/-- One record of the handler's `failures` list. -/
structure SampleFailure where
  key : String
  reason : FailReason
deriving DecidableEq

/-- The validation result document assembled by
`validate_transfer/handler.py` (returned on PASSED, attached as the
`ValidationError` details on FAILED). -/
structure ValidationResult where
  status : String
  total_expected : Nat
  total_found : Nat
  samples_checked : Nat
  samples_passed : Nat
  failures : List SampleFailure
deriving DecidableEq

/-- One iteration of the sampling loop of
`validate_transfer/handler.py` (lines 109-139): derive the destination
key, probe `head_object` (outcome injected via `probe`, returning
`ContentLength`), and either count a pass, record one size-mismatch
failure, or record one probe failure; a probe failure is captured as
data and never aborts the loop. -/
def check_sample (probe : String → Except String Nat) (sPre dPre : String)
    (acc : Nat × List SampleFailure) (obj : InvObj) : Nat × List SampleFailure :=
  match probe (derive_dest_key sPre dPre obj.key) with
  | .ok len =>
    if len = obj.size then (acc.1 + 1, acc.2)
    else (acc.1, acc.2 ++ [⟨derive_dest_key sPre dPre obj.key, .sizeMismatch obj.size len⟩])
  | .error msg =>
    (acc.1, acc.2 ++ [⟨derive_dest_key sPre dPre obj.key, .headFailed msg⟩])

/-- Embeds `samples = random.sample(objects, sample_size) if objects else []`
with `sample_size = min(config.validation_sample_size, total_expected)`;
the random draw is injected as `pick` (`random.sample(l, n)` returns
exactly `n` of `l`'s entries, which the theorems assume of `pick`). -/
def validate_samples (pick : List InvObj → Nat → List InvObj)
    (objects : List InvObj) (cfgSample : Nat) : List InvObj :=
  if objects.isEmpty then [] else pick objects (min cfgSample objects.length)

/-- The validation core of `validate_transfer/handler.py` (lines
104-157): count verification against the destination listing total
`destCount`, sampled `ContentLength` checks, and the result document
with `status = "PASSED" if (dest_count >= total_expected and not
failures) else "FAILED"`. -/
def validate_result (pick : List InvObj → Nat → List InvObj)
    (probe : String → Except String Nat) (objects : List InvObj)
    (destCount cfgSample : Nat) (sPre dPre : String) : ValidationResult :=
  let total := objects.length
  let sampleSize := min cfgSample total
  let samples := validate_samples pick objects cfgSample
  let res := samples.foldl (check_sample probe sPre dPre) (0, [])
  let status := if total ≤ destCount ∧ res.2 = [] then "PASSED" else "FAILED"
  ⟨status, total, destCount, sampleSize, res.1, res.2⟩

/-- The handler's boundary behavior: a FAILED result is raised as a
`ValidationError` carrying the same result document in its details, a
PASSED result is returned. -/
def validate_run (pick : List InvObj → Nat → List InvObj)
    (probe : String → Except String Nat) (objects : List InvObj)
    (destCount cfgSample : Nat) (sPre dPre : String) :
    Except ValidationResult ValidationResult :=
  let r := validate_result pick probe objects destCount cfgSample sPre dPre
  if r.status = "FAILED" then .error r else .ok r

/-- Deterministic stand-in for `random.sample`, witness input. -/
def take_pick : List InvObj → Nat → List InvObj := fun l n => l.take n

/-- Probe that reports `ContentLength = 3` for every key, witness input. -/
def const_probe : String → Except String Nat := fun _ => Except.ok 3

/-- Probe that fails on the derived key "out/b", witness input. -/
def missing_b_probe : String → Except String Nat :=
  fun k => if k = "out/b" then Except.error "missing" else Except.ok 3

/-- Two-record inventory, witness input. -/
def sample_objects : List InvObj := [⟨"data/a", 3⟩, ⟨"data/b", 4⟩]

/-! ## Theorems -/

theorem string_empty_append (s : String) : "" ++ s = s := by
  cases s with
  | mk data => rfl

/-- Claim C1 counterexample: with source prefix "data/" and destination
prefix "out/", the non-matching source key "other/x.txt" is mapped to
"out/other/x.txt" by the code, not kept unchanged as the claim states. -/
theorem derive_dest_key_c1_counterexample :
    py_starts_with "other/x.txt" "data/" = false ∧
    derive_dest_key "data/" "out/" "other/x.txt" = "out/other/x.txt" ∧
    derive_dest_key "data/" "out/" "other/x.txt" ≠ "other/x.txt" := by
  refine ⟨by decide, by decide, by decide⟩

/-- Claim C1 (amended): for every source key that starts with the
non-empty configured source prefix, the destination key is the
destination prefix followed by the remainder of the key; for every
source key that does NOT start with the source prefix, the destination
key is the destination prefix followed by the whole original key (so the
key is unchanged exactly when the destination prefix is empty). -/
theorem derive_dest_key_amended (sPre dPre key : String) (h : sPre ≠ "") :
    (py_starts_with key sPre = true →
      derive_dest_key sPre dPre key = dPre ++ String.mk (key.data.drop sPre.length)) ∧
    (py_starts_with key sPre = false →
      derive_dest_key sPre dPre key = dPre ++ key) := by
  have hne : (sPre != "") = true := by
    simpa [bne_iff_ne] using h
  constructor
  · intro hp
    by_cases hd : dPre = ""
    · subst hd
      simp [derive_dest_key, hne, hp, string_empty_append]
    · have hdne : (dPre != "") = true := by simpa [bne_iff_ne] using hd
      simp [derive_dest_key, hne, hp, hdne]
  · intro hp
    by_cases hd : dPre = ""
    · subst hd
      simp [derive_dest_key, hne, hp, string_empty_append]
    · have hdne : (dPre != "") = true := by simpa [bne_iff_ne] using hd
      simp [derive_dest_key, hne, hp, hdne]

/-- Witness for the amended C1 theorem at the spec's own example inputs. -/
theorem derive_dest_key_amended_witness :
    ("data/" : String) ≠ "" ∧
    (py_starts_with "data/a/b.txt" "data/" = true →
      derive_dest_key "data/" "out/" "data/a/b.txt" =
        "out/" ++ String.mk ("data/a/b.txt".data.drop "data/".length)) :=
  ⟨by decide, (derive_dest_key_amended "data/" "out/" "data/a/b.txt" (by decide)).1⟩

theorem lt_div_succ_mul (a b : Nat) (hb : 0 < b) : a < (a / b + 1) * b := by
  have h := Nat.div_add_mod a b
  have hm : a % b < b := Nat.mod_lt _ hb
  calc a = b * (a / b) + a % b := h.symm
    _ < b * (a / b) + b := by omega
    _ = (a / b + 1) * b := by ring

theorem mp_num_parts_eq (size ps : Nat) (hps : 0 < ps) (hsz : 0 < size) :
    mp_num_parts size ps = (size - 1) / ps + 1 := by
  unfold mp_num_parts
  have h : size + ps - 1 = (size - 1) + ps := by omega
  rw [h, Nat.add_div_right _ hps]

theorem mp_size_le_num_parts_mul (size ps : Nat) (hps : 0 < ps) (hsz : 0 < size) :
    size ≤ mp_num_parts size ps * ps := by
  rw [mp_num_parts_eq size ps hps hsz]
  have h := lt_div_succ_mul (size - 1) ps hps
  have h1 : size - 1 + 1 ≤ ((size - 1) / ps + 1) * ps := Nat.succ_le_of_lt h
  rwa [Nat.sub_add_cancel hsz] at h1

theorem mp_pred_num_parts_mul_lt (size ps : Nat) (hps : 0 < ps) (hsz : 0 < size) :
    (mp_num_parts size ps - 1) * ps < size := by
  rw [mp_num_parts_eq size ps hps hsz]
  simp only [Nat.add_sub_cancel]
  exact Nat.lt_of_le_of_lt (Nat.div_mul_le_self _ _) (Nat.sub_lt hsz Nat.one_pos)

theorem mp_num_parts_pos (size ps : Nat) (hps : 0 < ps) (hsz : 0 < size) :
    1 ≤ mp_num_parts size ps := by
  rw [mp_num_parts_eq size ps hps hsz]
  exact Nat.le_add_left 1 _

/-- Claim C2: for every object size at least the multipart threshold and
every positive part size, `num_parts` is exactly `ceil(size / partSize)`;
part `n` (for `1 ≤ n ≤ num_parts`) covers byte range
`[(n-1)*partSize, min(n*partSize, size) - 1]`; the ranges are nonempty,
stay below `size`, partition `[0, size)` exactly (every byte offset below
`size` lies in exactly one part's range), and the final part's upper
bound is `size - 1`. -/
theorem mp_part_ranges_correct (size ps : Nat) (hps : 0 < ps)
    (hsz : DEFAULT_MULTIPART_THRESHOLD ≤ size) :
    ((mp_num_parts size ps : ℤ) = ⌈(size : ℚ) / (ps : ℚ)⌉) ∧
    mp_part_start ps 1 = 0 ∧
    (∀ n, 1 ≤ n → n ≤ mp_num_parts size ps →
      mp_part_start ps n ≤ mp_part_end size ps n ∧ mp_part_end size ps n < size) ∧
    (∀ b, b < size → ∃! n, (1 ≤ n ∧ n ≤ mp_num_parts size ps) ∧
      mp_part_start ps n ≤ b ∧ b ≤ mp_part_end size ps n) ∧
    mp_part_end size ps (mp_num_parts size ps) = size - 1 := by
  have h0 : 0 < size := by
    have : (0 : Nat) < DEFAULT_MULTIPART_THRESHOLD := by norm_num [DEFAULT_MULTIPART_THRESHOLD]
    omega
  have hle := mp_size_le_num_parts_mul size ps hps h0
  have hlt := mp_pred_num_parts_mul_lt size ps hps h0
  have hN1 := mp_num_parts_pos size ps hps h0
  have hpsQ : (0 : ℚ) < (ps : ℚ) := by exact_mod_cast hps
  refine ⟨?_, ?_, ?_, ?_, ?_⟩
  · symm
    rw [Int.ceil_eq_iff]
    constructor
    · rw [lt_div_iff₀ hpsQ]
      have hcast : ((mp_num_parts size ps - 1 : ℕ) : ℚ) * (ps : ℚ) < (size : ℚ) := by
        exact_mod_cast hlt
      rw [Nat.cast_sub hN1] at hcast
      push_cast at hcast ⊢
      linarith
    · rw [div_le_iff₀ hpsQ]
      exact_mod_cast hle
  · simp [mp_part_start]
  · intro n hn1 hnN
    have hstart : (n - 1) * ps ≤ size - 1 := by
      have h1 : n - 1 ≤ (size - 1) / ps := by
        have := mp_num_parts_eq size ps hps h0
        omega
      calc (n - 1) * ps ≤ ((size - 1) / ps) * ps := Nat.mul_le_mul_right _ h1
        _ ≤ size - 1 := Nat.div_mul_le_self _ _
    constructor
    · unfold mp_part_start mp_part_end
      refine Nat.le_min.mpr ⟨?_, hstart⟩
      have hnps : ps ≤ n * ps := by
        calc ps = 1 * ps := (Nat.one_mul ps).symm
          _ ≤ n * ps := Nat.mul_le_mul_right _ hn1
      have : (n - 1) * ps + ps = n * ps := by
        have : (n - 1) + 1 = n := Nat.sub_add_cancel hn1
        calc (n - 1) * ps + ps = ((n - 1) + 1) * ps := by ring
          _ = n * ps := by rw [this]
      omega
    · unfold mp_part_end
      have : size - 1 < size := Nat.sub_lt h0 Nat.one_pos
      omega
  · intro b hb
    have hb1 : b ≤ size - 1 := Nat.le_sub_one_of_lt hb
    refine ⟨b / ps + 1, ⟨⟨Nat.le_add_left 1 _, ?_⟩, ?_, ?_⟩, ?_⟩
    · rw [mp_num_parts_eq size ps hps h0]
      have : b / ps ≤ (size - 1) / ps := Nat.div_le_div_right hb1
      omega
    · unfold mp_part_start
      simp only [Nat.add_sub_cancel]
      exact Nat.div_mul_le_self _ _
    · unfold mp_part_end
      refine Nat.le_min.mpr ⟨?_, hb1⟩
      exact Nat.le_sub_one_of_lt (lt_div_succ_mul b ps hps)
    · rintro y ⟨⟨hy1, _⟩, hys, hye⟩
      simp only [mp_part_start] at hys
      simp only [mp_part_end] at hye
      have hyps : 0 < y * ps := Nat.mul_pos hy1 hps
      have hlt2 : b < y * ps := by
        have : b ≤ y * ps - 1 := le_trans hye (Nat.min_le_left _ _)
        omega
      have hdiv : b / ps = y - 1 := by
        apply Nat.div_eq_of_lt_le
        · exact hys
        · have : (y - 1 + 1) * ps = y * ps := by rw [Nat.sub_add_cancel hy1]
          omega
      omega
  · unfold mp_part_end
    have : size - 1 ≤ mp_num_parts size ps * ps - 1 := by omega
    omega

/-- Witness for C2 at the spec's scenario: a 6 GiB object with the
default 100 MiB part size; the final part ends at byte `size - 1`. -/
theorem mp_part_ranges_correct_witness :
    (0 < DEFAULT_PART_SIZE ∧
      DEFAULT_MULTIPART_THRESHOLD ≤ 6 * 1024 * 1024 * 1024) ∧
    mp_part_end (6 * 1024 * 1024 * 1024) DEFAULT_PART_SIZE
      (mp_num_parts (6 * 1024 * 1024 * 1024) DEFAULT_PART_SIZE) =
      6 * 1024 * 1024 * 1024 - 1 :=
  ⟨⟨by norm_num [DEFAULT_PART_SIZE], by norm_num [DEFAULT_MULTIPART_THRESHOLD]⟩,
    (mp_part_ranges_correct (6 * 1024 * 1024 * 1024) DEFAULT_PART_SIZE
      (by norm_num [DEFAULT_PART_SIZE])
      (by norm_num [DEFAULT_MULTIPART_THRESHOLD])).2.2.2.2⟩

theorem copy_parts_from_events (p : Nat → Except ε String) :
    ∀ k start ev, ev ∈ (copy_parts_from p start k).2 → ∃ n, ev = S3Event.partCall n := by
  intro k
  induction k with
  | zero =>
    intro start ev h
    simp [copy_parts_from] at h
  | succ k ih =>
    intro start ev h
    unfold copy_parts_from at h
    cases hp : p start with
    | error e =>
      rw [hp] at h
      simp at h
      exact ⟨start, h⟩
    | ok etag =>
      rw [hp] at h
      simp at h
      rcases h with h | h
      · exact ⟨start, h⟩
      · exact ih (start + 1) ev h

theorem multipart_copy_no_single_call (c : MpClient ε) (size ps : Nat) :
    S3Event.copyObjectCall ∉ (multipart_copy c size ps).2 := by
  by_cases hg : MAX_OBJECT_SIZE < size
  · simp [multipart_copy, hg]
  · cases hc : c.createResult with
    | error e => simp [multipart_copy, hg, hc]
    | ok uid =>
      rcases hcp : copy_parts_from c.partResult 1 (mp_num_parts size ps) with ⟨r, evs⟩
      have hevs : ∀ ev ∈ evs, ∃ n, ev = S3Event.partCall n := by
        intro ev hev
        have h := copy_parts_from_events c.partResult (mp_num_parts size ps) 1 ev
        rw [hcp] at h
        exact h hev
      cases r with
      | error e =>
        simp only [multipart_copy, if_neg hg, hc, hcp]
        intro hmem
        simp only [List.mem_cons, List.mem_append, List.mem_singleton,
          List.not_mem_nil, or_false] at hmem
        rcases hmem with h | h | h
        · exact S3Event.noConfusion h
        · obtain ⟨n, hn⟩ := hevs _ h
          exact S3Event.noConfusion hn
        · exact S3Event.noConfusion h
      | ok parts =>
        cases hcomp : c.completeResult parts with
        | error e =>
          simp only [multipart_copy, if_neg hg, hc, hcp, hcomp]
          intro hmem
          simp only [List.mem_cons, List.mem_append, List.mem_singleton,
          List.not_mem_nil, or_false] at hmem
          rcases hmem with h | h | h | h
          · exact S3Event.noConfusion h
          · obtain ⟨n, hn⟩ := hevs _ h
            exact S3Event.noConfusion hn
          · exact S3Event.noConfusion h
          · exact S3Event.noConfusion h
        | ok u =>
          simp only [multipart_copy, if_neg hg, hc, hcp, hcomp]
          intro hmem
          simp only [List.mem_cons, List.mem_append, List.mem_singleton,
          List.not_mem_nil, or_false] at hmem
          rcases hmem with h | h | h
          · exact S3Event.noConfusion h
          · obtain ⟨n, hn⟩ := hevs _ h
            exact S3Event.noConfusion hn
          · exact S3Event.noConfusion h

/-- Claim C3: in every chunked copy where an exception is raised after
the upload id was assigned (part copies or completion), an abort call is
attempted and the original triggering error is what propagates (the error
escaping is exactly the one returned by the failing part copy or by the
completion call); the abort call's own outcome never changes the result
(it is swallowed); and when initiation itself fails, no abort is
attempted and the initiation error propagates. -/
theorem multipart_copy_abort_correct (c : MpClient ε) (size ps : Nat)
    (hsz : size ≤ MAX_OBJECT_SIZE) :
    (∀ e, c.createResult = .error e →
      multipart_copy c size ps = (.error (.client e), [S3Event.createCall])) ∧
    (∀ uid, c.createResult = .ok uid →
      ∀ er, (multipart_copy c size ps).1 = .error er →
        S3Event.abortCall ∈ (multipart_copy c size ps).2 ∧
        ∃ e, er = CopyErr.client e ∧
          ((copy_parts_from c.partResult 1 (mp_num_parts size ps)).1 = .error e ∨
            ∃ parts, (copy_parts_from c.partResult 1 (mp_num_parts size ps)).1 = .ok parts ∧
              c.completeResult parts = .error e)) ∧
    ((multipart_copy c size ps).1 = .ok () →
      S3Event.abortCall ∉ (multipart_copy c size ps).2) ∧
    (∀ a b, multipart_copy { c with abortResult := a } size ps =
      multipart_copy { c with abortResult := b } size ps) := by
  have hg : ¬ (MAX_OBJECT_SIZE < size) := Nat.not_lt.mpr hsz
  refine ⟨?_, ?_, ?_, fun a b => rfl⟩
  · intro e h
    simp [multipart_copy, hg, h]
  · intro uid hc er her
    rcases hcp : copy_parts_from c.partResult 1 (mp_num_parts size ps) with ⟨r, evs⟩
    cases r with
    | error e =>
      simp only [multipart_copy, if_neg hg, hc, hcp] at her ⊢
      refine ⟨by simp, e, ?_, Or.inl rfl⟩
      simpa using her.symm
    | ok parts =>
      cases hcomp : c.completeResult parts with
      | error e =>
        simp only [multipart_copy, if_neg hg, hc, hcp, hcomp] at her ⊢
        refine ⟨by simp, e, ?_, Or.inr ⟨parts, rfl, hcomp⟩⟩
        simpa using her.symm
      | ok u =>
        simp only [multipart_copy, if_neg hg, hc, hcp, hcomp] at her
        exact absurd her (by simp)
  · intro hok
    rcases hcp : copy_parts_from c.partResult 1 (mp_num_parts size ps) with ⟨r, evs⟩
    have hevs : ∀ ev ∈ evs, ∃ n, ev = S3Event.partCall n := by
      intro ev hev
      have h := copy_parts_from_events c.partResult (mp_num_parts size ps) 1 ev
      rw [hcp] at h
      exact h hev
    cases hc : c.createResult with
    | error e =>
      simp only [multipart_copy, if_neg hg, hc] at hok
      exact absurd hok (by simp)
    | ok uid =>
      cases r with
      | error e =>
        simp only [multipart_copy, if_neg hg, hc, hcp] at hok
        exact absurd hok (by simp)
      | ok parts =>
        cases hcomp : c.completeResult parts with
        | error e =>
          simp only [multipart_copy, if_neg hg, hc, hcp, hcomp] at hok
          exact absurd hok (by simp)
        | ok u =>
          simp only [multipart_copy, if_neg hg, hc, hcp, hcomp]
          intro hmem
          simp only [List.mem_cons, List.mem_append, List.mem_singleton,
          List.not_mem_nil, or_false] at hmem
          rcases hmem with h | h | h
          · exact S3Event.noConfusion h
          · obtain ⟨n, hn⟩ := hevs _ h
            exact S3Event.noConfusion hn
          · exact S3Event.noConfusion h

/-- Witness for C3: a client whose part-1 copy fails (and whose abort
call also fails) still records the abort attempt, and the part error is
what propagates. -/
theorem multipart_copy_abort_correct_witness :
    ((10 : Nat) ≤ MAX_OBJECT_SIZE ∧ mp_fail_client.createResult = Except.ok "uid-1") ∧
    S3Event.abortCall ∈ (multipart_copy mp_fail_client 10 4).2 :=
  ⟨⟨by norm_num [MAX_OBJECT_SIZE], rfl⟩,
    ((multipart_copy_abort_correct mp_fail_client 10 4
      (by norm_num [MAX_OBJECT_SIZE])).2.1 "uid-1" rfl
      (CopyErr.client "part-boom") (by rfl)).1⟩

/-- Claim C7: the handler performs the single-copy path exactly once
(one `copy_object` call, no multipart state) when
`object_size < multipart_threshold`, and performs the chunked copy path
when `object_size >= multipart_threshold`. -/
theorem transfer_dispatch_correct (c : MpClient ε) (size threshold ps : Nat) :
    (size < threshold →
      (transfer_copy c size threshold ps).2 = [S3Event.copyObjectCall] ∧
      S3Event.createCall ∉ (transfer_copy c size threshold ps).2) ∧
    (threshold ≤ size →
      transfer_copy c size threshold ps = multipart_copy c size ps ∧
      S3Event.copyObjectCall ∉ (transfer_copy c size threshold ps).2) := by
  constructor
  · intro h
    constructor
    · simp [transfer_copy, h]
    · simp [transfer_copy, h]
  · intro h
    have hn : ¬ (size < threshold) := Nat.not_lt.mpr h
    constructor
    · simp [transfer_copy, hn]
    · rw [show transfer_copy c size threshold ps = multipart_copy c size ps from by
        simp [transfer_copy, hn]]
      exact multipart_copy_no_single_call c size ps

/-- Witness for C7: a 10-byte object under a 100-byte threshold takes the
single-copy path with exactly one `copy_object` call. -/
theorem transfer_dispatch_correct_witness :
    (10 : Nat) < 100 ∧
    (transfer_copy mp_fail_client 10 100 4).2 = [S3Event.copyObjectCall] :=
  ⟨by norm_num, ((transfer_dispatch_correct mp_fail_client 10 100 4).1 (by norm_num)).1⟩

theorem retry_go_spec (op : Nat → Except ε α) (retryable : ε → Bool)
    (maxA : Nat) (base maxd : ℚ) (rand : Nat → ℚ) (e : Nat → ε)
    (hop : ∀ i, op i = .error (e i)) (hret : ∀ i, retryable (e i) = true) :
    ∀ fuel attempt, maxA = attempt + fuel → 0 < fuel →
      retry_go op retryable maxA base maxd rand attempt =
        ⟨.error (.raised (e (maxA - 1))), fuel,
          (List.range' attempt (fuel - 1)).map
            (fun i => rand i * min maxd (base * 2 ^ i))⟩ := by
  intro fuel
  induction fuel with
  | zero =>
    intro attempt hA h0
    omega
  | succ k ih =>
    intro attempt hA _
    have hlt : attempt < maxA := by omega
    rw [retry_go, dif_pos hlt, hop attempt]
    simp only [hret attempt, if_true]
    by_cases hlast : attempt = maxA - 1
    · have hk : k = 0 := by omega
      subst hk
      rw [if_pos hlast, hlast]
      rfl
    · have hk : 0 < k := by omega
      rw [if_neg hlast, ih (attempt + 1) (by omega) hk]
      have hrange : List.range' attempt (k + 1 - 1) =
          attempt :: List.range' (attempt + 1) (k - 1) := by
        obtain ⟨j, hj⟩ : ∃ j, k = j + 1 := ⟨k - 1, by omega⟩
        subst hj
        rfl
      rw [hrange]
      rfl

/-- Claim C4: with `maxAttempts = N ≥ 1`, an operation failing with a
retryable error on every attempt is invoked exactly N times, sleeps
exactly N-1 times, each sleep duration lies in
`[0, min(maxDelay, baseDelay * 2^attempt)]` (attempt zero-indexed), and
the last failure is re-raised unchanged. -/
theorem retry_exhaustion_correct (op : Nat → Except ε α) (retryable : ε → Bool)
    (maxA : Nat) (base maxd : ℚ) (rand : Nat → ℚ) (e : Nat → ε)
    (hop : ∀ i, op i = .error (e i)) (hret : ∀ i, retryable (e i) = true)
    (hrand : ∀ i, 0 ≤ rand i ∧ rand i ≤ 1)
    (hbase : 0 ≤ base) (hmaxd : 0 ≤ maxd) (hN : 1 ≤ maxA) :
    (retry_run op retryable maxA base maxd rand).calls = maxA ∧
    (retry_run op retryable maxA base maxd rand).sleeps.length = maxA - 1 ∧
    (retry_run op retryable maxA base maxd rand).result =
      .error (.raised (e (maxA - 1))) ∧
    (∀ k, (hk : k < (retry_run op retryable maxA base maxd rand).sleeps.length) →
      0 ≤ (retry_run op retryable maxA base maxd rand).sleeps.get ⟨k, hk⟩ ∧
      (retry_run op retryable maxA base maxd rand).sleeps.get ⟨k, hk⟩ ≤
        min maxd (base * 2 ^ k)) := by
  have hrun := retry_go_spec op retryable maxA base maxd rand e hop hret maxA 0
    (by omega) (by omega)
  rw [retry_run, hrun]
  refine ⟨rfl, by simp, rfl, ?_⟩
  intro k hk
  have hklt : k < maxA - 1 := by
    simpa using hk
  have hget : (List.map (fun i => rand i * min maxd (base * 2 ^ i))
      (List.range' 0 (maxA - 1))).get ⟨k, hk⟩ = rand k * min maxd (base * 2 ^ k) := by
    rw [List.get_eq_getElem, List.getElem_map, List.getElem_range']
    simp
  rw [hget]
  have hmin : 0 ≤ min maxd (base * 2 ^ k) :=
    le_min hmaxd (mul_nonneg hbase (pow_nonneg (by norm_num) k))
  constructor
  · exact mul_nonneg (hrand k).1 hmin
  · calc rand k * min maxd (base * 2 ^ k) ≤ 1 * min maxd (base * 2 ^ k) :=
      mul_le_mul_of_nonneg_right (hrand k).2 hmin
    _ = min maxd (base * 2 ^ k) := one_mul _

/-- Witness for C4: an always-failing retryable operation with
`maxAttempts = 3`, base delay 1, max delay 60 and jitter fraction 1/2 is
called 3 times, sleeps twice, and re-raises the last error. -/
theorem retry_exhaustion_correct_witness :
    (1 : Nat) ≤ 3 ∧
    (retry_run retry_fail_op (fun _ => true) 3 1 60 (fun _ => 1/2)).calls = 3 ∧
    (retry_run retry_fail_op (fun _ => true) 3 1 60 (fun _ => 1/2)).sleeps.length = 2 ∧
    (retry_run retry_fail_op (fun _ => true) 3 1 60 (fun _ => 1/2)).result =
      .error (.raised 0) := by
  have h := retry_exhaustion_correct retry_fail_op (fun _ => true) 3 1 60
    (fun _ => 1/2) (fun _ => 0) (fun i => rfl) (fun i => rfl)
    (fun i => ⟨by norm_num, by norm_num⟩) (by norm_num) (by norm_num) (by norm_num)
  exact ⟨by norm_num, h.1, h.2.1, h.2.2.1⟩

/-- Claim C5: a failure classified as non-retryable on the first attempt
causes exactly 1 invocation and 0 sleeps; it propagates immediately for
any configured `maxAttempts ≥ 1`. -/
theorem retry_fail_fast_correct (op : Nat → Except ε α) (retryable : ε → Bool)
    (maxA : Nat) (base maxd : ℚ) (rand : Nat → ℚ) (e0 : ε)
    (hN : 1 ≤ maxA) (hop : op 0 = .error e0) (hret : retryable e0 = false) :
    retry_run op retryable maxA base maxd rand = ⟨.error (.raised e0), 1, []⟩ := by
  rw [retry_run, retry_go, dif_pos (by omega : 0 < maxA), hop]
  simp [hret]

/-- Witness for C5: a non-retryable failure under `maxAttempts = 3` gives
one invocation, no sleeps, and the original error. -/
theorem retry_fail_fast_correct_witness :
    (1 : Nat) ≤ 3 ∧
    retry_run nonretry_fail_op (fun _ => false) 3 1 60 (fun _ => 1/2) =
      ⟨.error (.raised 7), 1, []⟩ :=
  ⟨by norm_num,
    retry_fail_fast_correct nonretry_fail_op (fun _ => false) 3 1 60 (fun _ => 1/2) 7
      (by norm_num) rfl rfl⟩

theorem assume_role_invalid_eq (cache : String → Option CacheEntry) (t : ℚ)
    (role : String) (remote : Except ε (Creds × ℚ))
    (h : is_cached_credential_valid cache t role = false) :
    assume_role cache t role remote = assume_role_remote cache role remote := by
  cases hc : cache role with
  | none => simp [assume_role, hc]
  | some entry =>
    have h2 : ¬ (t < entry.expiry - CREDENTIAL_BUFFER_SECONDS) := by
      unfold is_cached_credential_valid at h
      rw [hc] at h
      simpa using h
    simp [assume_role, hc, h2]

/-- Claim C8: a cached credential for the role with
`now < expiry - 300` is returned with no remote call and no cache change;
otherwise exactly one remote call is made and, on success, the result is
stored in the cache under the role id with its absolute expiry and
returned.  Consequently two acquisitions for the same role within the
buffer window perform exactly one remote call in total, while a second
acquisition at or past `expiry - 300` performs a second remote call. -/
theorem assume_role_cache_correct (cache : String → Option CacheEntry)
    (t1 t2 : ℚ) (role : String) (remote remote2 : Except ε (Creds × ℚ)) :
    (∀ entry, cache role = some entry →
      t1 < entry.expiry - CREDENTIAL_BUFFER_SECONDS →
      assume_role cache t1 role remote = ⟨.ok entry.credentials, cache, 0⟩) ∧
    (is_cached_credential_valid cache t1 role = false →
      (assume_role cache t1 role remote).remoteCalls = 1 ∧
      (∀ creds exp, remote = .ok (creds, exp) →
        (assume_role cache t1 role remote).result = .ok creds ∧
        (assume_role cache t1 role remote).cache role = some ⟨creds, exp⟩)) ∧
    (∀ creds exp, remote = .ok (creds, exp) →
      is_cached_credential_valid cache t1 role = false →
      ((t2 < exp - CREDENTIAL_BUFFER_SECONDS →
        (assume_role (assume_role cache t1 role remote).cache t2 role remote2).remoteCalls = 0 ∧
        (assume_role (assume_role cache t1 role remote).cache t2 role remote2).result =
          .ok creds) ∧
        (¬ t2 < exp - CREDENTIAL_BUFFER_SECONDS →
          (assume_role (assume_role cache t1 role remote).cache t2 role remote2).remoteCalls =
            1))) := by
  refine ⟨?_, ?_, ?_⟩
  · intro entry hc hlt
    simp [assume_role, hc, hlt]
  · intro hinv
    rw [assume_role_invalid_eq cache t1 role remote hinv]
    constructor
    · cases remote <;> rfl
    · intro creds exp hr
      subst hr
      exact ⟨rfl, by simp [assume_role_remote]⟩
  · intro creds exp hr hinv
    rw [assume_role_invalid_eq cache t1 role remote hinv]
    subst hr
    have hcache : (assume_role_remote cache role
        (Except.ok (creds, exp) : Except ε (Creds × ℚ))).cache role =
        some ⟨creds, exp⟩ := by
      simp [assume_role_remote]
    constructor
    · intro hlt
      constructor
      · simp [assume_role, hcache, hlt]
      · simp [assume_role, hcache, hlt]
    · intro hge
      have hinv2 : is_cached_credential_valid
          (assume_role_remote cache role
            (Except.ok (creds, exp) : Except ε (Creds × ℚ))).cache t2 role = false := by
        unfold is_cached_credential_valid
        rw [hcache]
        simpa using hge
      rw [assume_role_invalid_eq _ t2 role remote2 hinv2]
      cases remote2 <;> rfl

/-- Witness for C8: starting from an empty cache, a successful
acquisition at time 0 (expiry 1000) followed by a second acquisition at
time 500 (inside the buffer window, 500 < 700) performs no second remote
call and returns the cached credentials. -/
theorem assume_role_cache_correct_witness :
    is_cached_credential_valid (fun _ => none) 0 "role-a" = false ∧
    (assume_role
      (assume_role (fun _ => none) 0 "role-a"
        (Except.ok (⟨"AK", "SK", "ST"⟩, 1000) : Except String (Creds × ℚ))).cache
      500 "role-a"
      (Except.ok (⟨"AK", "SK", "ST"⟩, 1000) : Except String (Creds × ℚ))).remoteCalls = 0 :=
  ⟨rfl,
    (((assume_role_cache_correct (fun _ => none) 0 500 "role-a"
      (Except.ok (⟨"AK", "SK", "ST"⟩, 1000))
      (Except.ok (⟨"AK", "SK", "ST"⟩, 1000))).2.2 ⟨"AK", "SK", "ST"⟩ 1000 rfl rfl).1
      (by norm_num [CREDENTIAL_BUFFER_SECONDS])).1⟩

/-- Claim C9: the error classification is a pure mapping; throttling,
transient-server and request-timeout codes classify as retryable, the
authorization-denial codes classify as the non-retryable access-denied
class, and every other code classifies as retryable (the conservative
default), for both the S3 and the STS classifier. -/
theorem classify_error_correct :
    (classify_s3_error "SlowDown" = .retryable ∧
      classify_s3_error "503" = .retryable ∧
      classify_s3_error "RequestTimeout" = .retryable ∧
      classify_s3_error "InternalError" = .retryable) ∧
    (classify_s3_error "AccessDenied" = .accessDenied ∧
      classify_s3_error "403" = .accessDenied) ∧
    (∀ code, code ≠ "AccessDenied" → code ≠ "403" →
      classify_s3_error code = .retryable) ∧
    (classify_sts_error "AccessDenied" = .accessDenied ∧
      classify_sts_error "AccessDeniedException" = .accessDenied) ∧
    (∀ code, code ≠ "AccessDenied" → code ≠ "AccessDeniedException" →
      classify_sts_error code = .retryable) := by
  refine ⟨⟨by decide, by decide, by decide, by decide⟩, ⟨by decide, by decide⟩,
    ?_, ⟨by decide, by decide⟩, ?_⟩
  · intro code h1 h2
    unfold classify_s3_error
    rw [if_neg (by tauto)]
    split <;> rfl
  · intro code h1 h2
    unfold classify_sts_error
    rw [if_neg (by tauto)]

/-- Witness for C9: the unknown code "NoSuchKey" takes the conservative
retryable default in the S3 classifier. -/
theorem classify_error_correct_witness :
    ("NoSuchKey" : String) ≠ "AccessDenied" ∧
    classify_s3_error "NoSuchKey" = ErrClass.retryable :=
  ⟨by decide, classify_error_correct.2.2.1 "NoSuchKey" (by decide) (by decide)⟩

theorem validate_samples_length (pick : List InvObj → Nat → List InvObj)
    (objects : List InvObj) (cfgSample : Nat)
    (hpick : ∀ (l : List InvObj) n, n ≤ l.length → (pick l n).length = n) :
    (validate_samples pick objects cfgSample).length = min cfgSample objects.length := by
  unfold validate_samples
  by_cases h : objects.isEmpty
  · have hnil : objects = [] := by
      cases objects with
      | nil => rfl
      | cons a l => simp at h
    subst hnil
    simp
  · simp only [h, if_false, Bool.false_eq_true]
    exact hpick objects (min cfgSample objects.length) (Nat.min_le_right _ _)

/-- Claim C6: the overall status is PASSED iff the destination count is
at least the expected count and the failures list is empty (otherwise
FAILED); the number of sampled entries is exactly
`min(configuredSampleSize, |inventory|)`; and an empty inventory yields
an empty sample and no raised error. -/
theorem validate_status_correct (pick : List InvObj → Nat → List InvObj)
    (probe : String → Except String Nat) (objects : List InvObj)
    (destCount cfgSample : Nat) (sPre dPre : String)
    (hpick : ∀ (l : List InvObj) n, n ≤ l.length → (pick l n).length = n) :
    ((validate_result pick probe objects destCount cfgSample sPre dPre).status = "PASSED" ↔
      (objects.length ≤ destCount ∧
        (validate_result pick probe objects destCount cfgSample sPre dPre).failures = [])) ∧
    ((validate_result pick probe objects destCount cfgSample sPre dPre).status = "PASSED" ∨
      (validate_result pick probe objects destCount cfgSample sPre dPre).status = "FAILED") ∧
    (validate_result pick probe objects destCount cfgSample sPre dPre).samples_checked =
      min cfgSample objects.length ∧
    (validate_samples pick objects cfgSample).length = min cfgSample objects.length ∧
    (objects = [] →
      validate_samples pick objects cfgSample = [] ∧
      validate_run pick probe objects destCount cfgSample sPre dPre =
        .ok (validate_result pick probe objects destCount cfgSample sPre dPre)) := by
  refine ⟨?_, ?_, rfl, validate_samples_length pick objects cfgSample hpick, ?_⟩
  · simp only [validate_result]
    split
    · rename_i h
      simpa using h
    · rename_i h
      constructor
      · intro hs
        exact absurd hs (by decide)
      · intro hs
        exact absurd hs h
  · simp only [validate_result]
    split
    · left
      rfl
    · right
      rfl
  · intro hnil
    subst hnil
    constructor
    · rfl
    · simp [validate_run, validate_result, validate_samples, check_sample]

/-- Witness for C6: two inventory records, destination count 2,
configured sample size 10: the sample size is `min 10 2 = 2`. -/
theorem validate_status_correct_witness :
    (validate_result take_pick const_probe sample_objects 2 10 "data/" "out/").samples_checked
      = 2 := by
  have h := validate_status_correct take_pick const_probe sample_objects 2 10 "data/" "out/"
    (fun l n hn => by simp [take_pick]; omega)
  simpa [sample_objects] using h.2.2.1

theorem check_fold_accounting (probe : String → Except String Nat) (sPre dPre : String) :
    ∀ (samples : List InvObj) (acc : Nat × List SampleFailure),
      (samples.foldl (check_sample probe sPre dPre) acc).1 +
        (samples.foldl (check_sample probe sPre dPre) acc).2.length =
        acc.1 + acc.2.length + samples.length := by
  intro samples
  induction samples with
  | nil =>
    intro acc
    simp
  | cons obj rest ih =>
    intro acc
    rw [List.foldl_cons, ih]
    have hstep : (check_sample probe sPre dPre acc obj).1 +
        (check_sample probe sPre dPre acc obj).2.length = acc.1 + acc.2.length + 1 := by
      unfold check_sample
      cases hp : probe (derive_dest_key sPre dPre obj.key) with
      | ok len =>
        by_cases h : len = obj.size
        · simp [h]
          omega
        · simp [h]
          omega
      | error msg =>
        simp
        omega
    simp only [List.length_cons]
    omega

/-- Claim C10: in every result the validation handler produces,
`samples_passed` plus the number of failure records equals
`samples_checked` — each sampled entry is counted exactly once, as a
pass or as exactly one failure record, and a probe failure never
terminates the sampling loop. -/
theorem validate_sample_accounting (pick : List InvObj → Nat → List InvObj)
    (probe : String → Except String Nat) (objects : List InvObj)
    (destCount cfgSample : Nat) (sPre dPre : String)
    (hpick : ∀ (l : List InvObj) n, n ≤ l.length → (pick l n).length = n) :
    (validate_result pick probe objects destCount cfgSample sPre dPre).samples_passed +
      (validate_result pick probe objects destCount cfgSample sPre dPre).failures.length =
      (validate_result pick probe objects destCount cfgSample sPre dPre).samples_checked := by
  have hlen := validate_samples_length pick objects cfgSample hpick
  have hacc := check_fold_accounting probe sPre dPre
    (validate_samples pick objects cfgSample) (0, [])
  simp only [validate_result]
  simp only [List.length_nil] at hacc
  omega

/-- Witness for C10: one passing sample and one probe failure still sum
to the checked count (1 + 1 = 2). -/
theorem validate_sample_accounting_witness :
    (validate_result take_pick missing_b_probe sample_objects 2 10 "data/" "out/").samples_passed +
      (validate_result take_pick missing_b_probe sample_objects 2 10 "data/" "out/").failures.length =
      (validate_result take_pick missing_b_probe sample_objects 2 10 "data/" "out/").samples_checked :=
  validate_sample_accounting take_pick missing_b_probe sample_objects 2 10 "data/" "out/"
    (fun l n hn => by simp [take_pick]; omega)

end S3Batch
